import Mathlib

/-!
Shallow embedding of the go-cache repository: the `Item` data model, the
in-memory storage (an association list standing for the Go map), the cache
engine operations (`Set`, `Get`, `get`, `Add`, `Replace`, the
increment/decrement family), the janitor sweep (`memoryStorage.DeleteExpired`)
and the JSON marshalling of the redis-backed storage.

Modelling conventions:
* Go fixed-width integers are modelled as `Int` together with explicit
  wraparound (`wrapS`/`wrapU`, reduction modulo `2 ^ w`).  `int`, `uint` and
  `uintptr` are modelled at 64 bits (the platforms the code targets).
* Go `float64` is modelled by Lean `Float` (both are IEEE-754 binary64).
  Go `float32` is also carried as a `Float` payload; no theorem below
  evaluates float arithmetic, the float branches are only moved around
  symbolically, so the extra precision of the payload is never consulted.
* `time.Now().UnixNano()` is passed in explicitly as a `now : Int` parameter;
  `time.Duration` values are `Int` nanosecond counts.  Timestamp arithmetic
  is modelled on unbounded `Int` (no claim concerns int64 time overflow).
* The dynamically typed `interface{}` payload is the tagged union `GoVal`,
  with one constructor per numeric type the arithmetic family switches on,
  plus strings and the nil interface for non-numeric payloads.
* The Go map `map[string]Item` is an association list `List (String × Item)`;
  `mapGet`/`mapSet`/`mapDel` model indexing, assignment and `delete`.
* Goroutine effects are sequentialised: the `go func() { ch <- k }()` push in
  the refresh-dispatch path is modelled as an immediate append to the
  `refreshQueue` list, and the dedup map `refreshConcurrencyMap` is the list
  `refreshMap`.  Lock/unlock calls have no observable effect in this
  sequential model and are dropped.
* Errors built with `fmt.Errorf` are modelled as their `String` messages;
  an operation returning `error` returns `Option String` (`none` = success).
-/

/-- Dynamically typed stored value: one constructor per concrete type the
arithmetic switch statements case on, plus a string and a nil payload for
the non-numeric default branch. -/
inductive GoVal where
  | vint (x : Int)
  | vint8 (x : Int)
  | vint16 (x : Int)
  | vint32 (x : Int)
  | vint64 (x : Int)
  | vuint (x : Int)
  | vuintptr (x : Int)
  | vuint8 (x : Int)
  | vuint16 (x : Int)
  | vuint32 (x : Int)
  | vuint64 (x : Int)
  | vfloat32 (f : Float)
  | vfloat64 (f : Float)
  | vstr (s : String)
  | vnil

/-- Item is the stored unit: value plus expiration and refresh-deadline
timestamps (absolute nanoseconds, 0 meaning none). -/
structure Item where
  Object : GoVal
  Expiration : Int
  RefreshDeadline : Int

/-- Expired returns true if the item has expired: the source tests
`item.Expiration == 0` first and otherwise compares with `time.Now`. -/
def Item.Expired (item : Item) (now : Int) : Bool :=
  if item.Expiration = 0 then false else decide (item.Expiration < now)

/-- RefreshDeadlineReached returns true if the item has reached its refresh
deadline. -/
def Item.RefreshDeadlineReached (item : Item) (now : Int) : Bool :=
  if item.RefreshDeadline = 0 then false else decide (item.RefreshDeadline < now)

/-- NoExpiration sentinel duration. -/
def NoExpiration : Int := -1

/-- NoRefreshDeadline sentinel duration. -/
def NoRefreshDeadline : Int := -1

/-- DefaultExpiration sentinel duration. -/
def DefaultExpiration : Int := 0

/-- Unsigned wraparound at width `w`: reduction into `[0, 2 ^ w)`. -/
def wrapU (w : Nat) (x : Int) : Int := x.emod ((2 : Int) ^ w)

/-- Signed two's-complement wraparound at width `w`: reduction into
`[-2 ^ (w - 1), 2 ^ (w - 1))`. -/
def wrapS (w : Nat) (x : Int) : Int :=
  (x + (2 : Int) ^ (w - 1)).emod ((2 : Int) ^ w) - (2 : Int) ^ (w - 1)

/-- incVal is the type switch of `cache.Increment`: the argument `n` (a Go
`int64`) is first converted to the stored value's own type and then added
with that type's fixed-width wraparound; `none` is the default branch
(value not numeric). -/
def incVal : GoVal → Int → Option GoVal
  | GoVal.vint x, n => some (GoVal.vint (wrapS 64 (x + wrapS 64 n)))
  | GoVal.vint8 x, n => some (GoVal.vint8 (wrapS 8 (x + wrapS 8 n)))
  | GoVal.vint16 x, n => some (GoVal.vint16 (wrapS 16 (x + wrapS 16 n)))
  | GoVal.vint32 x, n => some (GoVal.vint32 (wrapS 32 (x + wrapS 32 n)))
  | GoVal.vint64 x, n => some (GoVal.vint64 (wrapS 64 (x + n)))
  | GoVal.vuint x, n => some (GoVal.vuint (wrapU 64 (x + wrapU 64 n)))
  | GoVal.vuintptr x, n => some (GoVal.vuintptr (wrapU 64 (x + wrapU 64 n)))
  | GoVal.vuint8 x, n => some (GoVal.vuint8 (wrapU 8 (x + wrapU 8 n)))
  | GoVal.vuint16 x, n => some (GoVal.vuint16 (wrapU 16 (x + wrapU 16 n)))
  | GoVal.vuint32 x, n => some (GoVal.vuint32 (wrapU 32 (x + wrapU 32 n)))
  | GoVal.vuint64 x, n => some (GoVal.vuint64 (wrapU 64 (x + wrapU 64 n)))
  | GoVal.vfloat32 f, n => some (GoVal.vfloat32 (f + Float.ofInt n))
  | GoVal.vfloat64 f, n => some (GoVal.vfloat64 (f + Float.ofInt n))
  | GoVal.vstr _, _ => none
  | GoVal.vnil, _ => none

/-- decVal is the type switch of `cache.Decrement`: same shape as `incVal`
with subtraction (unsigned subtraction also wraps). -/
def decVal : GoVal → Int → Option GoVal
  | GoVal.vint x, n => some (GoVal.vint (wrapS 64 (x - wrapS 64 n)))
  | GoVal.vint8 x, n => some (GoVal.vint8 (wrapS 8 (x - wrapS 8 n)))
  | GoVal.vint16 x, n => some (GoVal.vint16 (wrapS 16 (x - wrapS 16 n)))
  | GoVal.vint32 x, n => some (GoVal.vint32 (wrapS 32 (x - wrapS 32 n)))
  | GoVal.vint64 x, n => some (GoVal.vint64 (wrapS 64 (x - n)))
  | GoVal.vuint x, n => some (GoVal.vuint (wrapU 64 (x - wrapU 64 n)))
  | GoVal.vuintptr x, n => some (GoVal.vuintptr (wrapU 64 (x - wrapU 64 n)))
  | GoVal.vuint8 x, n => some (GoVal.vuint8 (wrapU 8 (x - wrapU 8 n)))
  | GoVal.vuint16 x, n => some (GoVal.vuint16 (wrapU 16 (x - wrapU 16 n)))
  | GoVal.vuint32 x, n => some (GoVal.vuint32 (wrapU 32 (x - wrapU 32 n)))
  | GoVal.vuint64 x, n => some (GoVal.vuint64 (wrapU 64 (x - wrapU 64 n)))
  | GoVal.vfloat32 f, n => some (GoVal.vfloat32 (f - Float.ofInt n))
  | GoVal.vfloat64 f, n => some (GoVal.vfloat64 (f - Float.ofInt n))
  | GoVal.vstr _, _ => none
  | GoVal.vnil, _ => none

/-- fincVal is the type switch of `cache.IncrementFloat` (float32/float64
only, argument is a Go `float64`). -/
def fincVal : GoVal → Float → Option GoVal
  | GoVal.vfloat32 f, n => some (GoVal.vfloat32 (f + n))
  | GoVal.vfloat64 f, n => some (GoVal.vfloat64 (f + n))
  | _, _ => none

/-- fdecVal is the type switch of `cache.DecrementFloat`. -/
def fdecVal : GoVal → Float → Option GoVal
  | GoVal.vfloat32 f, n => some (GoVal.vfloat32 (f - n))
  | GoVal.vfloat64 f, n => some (GoVal.vfloat64 (f - n))
  | _, _ => none

/-- mapGet models indexing the Go map `s.items[key]` with its found flag. -/
def mapGet (m : List (String × Item)) (k : String) : Option Item :=
  match m.find? (fun p => p.fst == k) with
  | some p => some p.snd
  | none => none

/-- mapSet models `s.items[key] = item` (unconditional overwrite). -/
def mapSet (m : List (String × Item)) (k : String) (it : Item) :
    List (String × Item) :=
  match m with
  | [] => [(k, it)]
  | p :: rest => if p.fst == k then (k, it) :: rest else p :: mapSet rest k it

/-- mapDel models `delete(s.items, key)` (no-op when absent). -/
def mapDel (m : List (String × Item)) (k : String) : List (String × Item) :=
  m.filter (fun p => p.fst != k)

/-- DeleteExpired is the janitor sweep of the in-memory storage: `now` is
read once before the scan, and an entry is deleted exactly when
`v.Expiration > 0 && now > v.Expiration`. -/
def memoryStorage.DeleteExpired (now : Int) (m : List (String × Item)) :
    List (String × Item) :=
  m.filter (fun p => !(decide (0 < p.snd.Expiration) && decide (p.snd.Expiration < now)))

/-- CacheState is the engine state: configured default expiration duration,
the in-memory storage contents, the refresh dedup map
(`refreshConcurrencyMap`, as the list of member keys) and the pending
contents of the `refreshKeys` channel. -/
structure CacheState where
  defaultExpiration : Int
  items : List (String × Item)
  refreshMap : List String
  refreshQueue : List String

namespace cache

/-- Set adds an item, replacing any existing one: a 0 duration resolves to
the cache default, a non-positive resolved duration leaves the expiration
timestamp at 0, and analogously for the refresh deadline (the unexported
`set` used by `Add`/`Replace` has the identical body, so it is modelled by
this same function). -/
def Set (now : Int) (k : String) (x : GoVal) (d rd : Int) (c : CacheState) :
    CacheState :=
  let d1 := if d = DefaultExpiration then c.defaultExpiration else d
  let e := if 0 < d1 then now + d1 else 0
  let erd := if 0 < rd then now + rd else 0
  { c with items := mapSet c.items k (Item.mk x e erd) }

/-- get is the unexported lookup used by `Add` and `Replace`: absent or
expired (inline `Expiration > 0 && now > Expiration` test) yields not
found; a live entry past its refresh deadline inserts the key into the
dedup map, spawns the queue push (sequentialised to an immediate append)
and then immediately deletes the key from the dedup map again. -/
def get (now : Int) (k : String) (c : CacheState) :
    Option GoVal × CacheState :=
  match mapGet c.items k with
  | none => (none, c)
  | some item =>
    if 0 < item.Expiration ∧ item.Expiration < now then (none, c)
    else
      if 0 < item.RefreshDeadline ∧ item.RefreshDeadlineReached now then
        if k ∈ c.refreshMap then (some item.Object, c)
        else
          (some item.Object,
            { c with
              refreshQueue := c.refreshQueue ++ [k],
              refreshMap := (k :: c.refreshMap).erase k })
      else (some item.Object, c)

/-- Get is the exported lookup: same expiry logic as `get`, but on a reached
refresh deadline the key stays in the dedup map after the queue push (the
worker removes it after the callback). -/
def Get (now : Int) (k : String) (c : CacheState) :
    Option GoVal × CacheState :=
  match mapGet c.items k with
  | none => (none, c)
  | some item =>
    if 0 < item.Expiration ∧ item.Expiration < now then (none, c)
    else
      if 0 < item.RefreshDeadline ∧ item.RefreshDeadlineReached now then
        if k ∈ c.refreshMap then (some item.Object, c)
        else
          (some item.Object,
            { c with
              refreshQueue := c.refreshQueue ++ [k],
              refreshMap := k :: c.refreshMap })
      else (some item.Object, c)

/-- refreshWorkerStep is one iteration of a refresh worker: dequeue a key,
invoke the callback with it (returned to the caller of the model), then
delete the key from the dedup map. -/
def refreshWorkerStep (c : CacheState) : Option (String × CacheState) :=
  match c.refreshQueue with
  | [] => none
  | k :: rest =>
    some (k, { c with refreshQueue := rest, refreshMap := c.refreshMap.erase k })

/-- Add stores the value only if no live entry exists (single critical
section: the check uses `get`, the store uses the `set` body). -/
def Add (now : Int) (k : String) (x : GoVal) (d rd : Int) (c : CacheState) :
    Option String × CacheState :=
  match get now k c with
  | (some _, c1) => (some ("Item " ++ k ++ " already exists"), c1)
  | (none, c1) => (none, Set now k x d rd c1)

/-- Replace stores the value only if a live entry already exists. -/
def Replace (now : Int) (k : String) (x : GoVal) (d rd : Int) (c : CacheState) :
    Option String × CacheState :=
  match get now k c with
  | (none, c1) => (some ("Item " ++ k ++ " doesn't exist"), c1)
  | (some _, c1) => (none, Set now k x d rd c1)

/-- Increment adds `n` to a stored numeric value using the stored type's own
wraparound arithmetic; not-found covers both absence and `Expired()`. -/
def Increment (now : Int) (k : String) (n : Int) (c : CacheState) :
    Option String × CacheState :=
  match mapGet c.items k with
  | none => (some ("Item " ++ k ++ " not found"), c)
  | some v =>
    if v.Expired now then (some ("Item " ++ k ++ " not found"), c)
    else
      match incVal v.Object n with
      | some o =>
        (none, { c with items := mapSet c.items k { v with Object := o } })
      | none => (some ("The value for " ++ k ++ " is not an integer"), c)

/-- Decrement subtracts `n` analogously (its not-found message carries no
key in the source). -/
def Decrement (now : Int) (k : String) (n : Int) (c : CacheState) :
    Option String × CacheState :=
  match mapGet c.items k with
  | none => (some "Item not found", c)
  | some v =>
    if v.Expired now then (some "Item not found", c)
    else
      match decVal v.Object n with
      | some o =>
        (none, { c with items := mapSet c.items k { v with Object := o } })
      | none => (some ("The value for " ++ k ++ " is not an integer"), c)

/-- IncrementFloat adds a `float64` amount to a float32/float64 value. -/
def IncrementFloat (now : Int) (k : String) (n : Float) (c : CacheState) :
    Option String × CacheState :=
  match mapGet c.items k with
  | none => (some ("Item " ++ k ++ " not found"), c)
  | some v =>
    if v.Expired now then (some ("Item " ++ k ++ " not found"), c)
    else
      match fincVal v.Object n with
      | some o =>
        (none, { c with items := mapSet c.items k { v with Object := o } })
      | none =>
        (some ("The value for " ++ k ++ " does not have type float32 or float64"), c)

/-- DecrementFloat subtracts a `float64` amount from a float32/float64
value. -/
def DecrementFloat (now : Int) (k : String) (n : Float) (c : CacheState) :
    Option String × CacheState :=
  match mapGet c.items k with
  | none => (some ("Item " ++ k ++ " not found"), c)
  | some v =>
    if v.Expired now then (some ("Item " ++ k ++ " not found"), c)
    else
      match fdecVal v.Object n with
      | some o =>
        (none, { c with items := mapSet c.items k { v with Object := o } })
      | none =>
        (some ("The value for " ++ k ++ " does not have type float32 or float64"), c)

/-- IncrementInt is the typed variant for `int`: the stored value must be
exactly an `int`, and the new value is returned. -/
def IncrementInt (now : Int) (k : String) (n : Int) (c : CacheState) :
    Int × Option String × CacheState :=
  match mapGet c.items k with
  | none => (0, some ("Item " ++ k ++ " not found"), c)
  | some v =>
    if v.Expired now then (0, some ("Item " ++ k ++ " not found"), c)
    else
      match v.Object with
      | GoVal.vint rv =>
        let nv := wrapS 64 (rv + n)
        (nv, none,
          { c with items := mapSet c.items k { v with Object := GoVal.vint nv } })
      | _ => (0, some ("The value for " ++ k ++ " is not an int"), c)

/-- IncrementInt8 is the typed variant for `int8`. -/
def IncrementInt8 (now : Int) (k : String) (n : Int) (c : CacheState) :
    Int × Option String × CacheState :=
  match mapGet c.items k with
  | none => (0, some ("Item " ++ k ++ " not found"), c)
  | some v =>
    if v.Expired now then (0, some ("Item " ++ k ++ " not found"), c)
    else
      match v.Object with
      | GoVal.vint8 rv =>
        let nv := wrapS 8 (rv + n)
        (nv, none,
          { c with items := mapSet c.items k { v with Object := GoVal.vint8 nv } })
      | _ => (0, some ("The value for " ++ k ++ " is not an int8"), c)

/-- IncrementUint64 is the typed variant for `uint64`. -/
def IncrementUint64 (now : Int) (k : String) (n : Int) (c : CacheState) :
    Int × Option String × CacheState :=
  match mapGet c.items k with
  | none => (0, some ("Item " ++ k ++ " not found"), c)
  | some v =>
    if v.Expired now then (0, some ("Item " ++ k ++ " not found"), c)
    else
      match v.Object with
      | GoVal.vuint64 rv =>
        let nv := wrapU 64 (rv + n)
        (nv, none,
          { c with items := mapSet c.items k { v with Object := GoVal.vuint64 nv } })
      | _ => (0, some ("The value for " ++ k ++ " is not an uint64"), c)

/-- DecrementInt8 is the typed decrement variant for `int8`. -/
def DecrementInt8 (now : Int) (k : String) (n : Int) (c : CacheState) :
    Int × Option String × CacheState :=
  match mapGet c.items k with
  | none => (0, some ("Item " ++ k ++ " not found"), c)
  | some v =>
    if v.Expired now then (0, some ("Item " ++ k ++ " not found"), c)
    else
      match v.Object with
      | GoVal.vint8 rv =>
        let nv := wrapS 8 (rv - n)
        (nv, none,
          { c with items := mapSet c.items k { v with Object := GoVal.vint8 nv } })
      | _ => (0, some ("The value for " ++ k ++ " is not an int8"), c)

/-- DecrementFloat32 is the typed decrement variant for `float32`. -/
def DecrementFloat32 (now : Int) (k : String) (n : Float) (c : CacheState) :
    Float × Option String × CacheState :=
  match mapGet c.items k with
  | none => (0, some ("Item " ++ k ++ " not found"), c)
  | some v =>
    if v.Expired now then (0, some ("Item " ++ k ++ " not found"), c)
    else
      match v.Object with
      | GoVal.vfloat32 rv =>
        let nv := rv - n
        (nv, none,
          { c with items := mapSet c.items k { v with Object := GoVal.vfloat32 nv } })
      | _ => (0, some ("The value for " ++ k ++ " is not an float32"), c)

/-- Delete removes an item (no-op, no error, if absent). -/
def Delete (k : String) (c : CacheState) : CacheState :=
  { c with items := mapDel c.items k }

/-- Flush removes all items. -/
def Flush (c : CacheState) : CacheState :=
  { c with items := [] }

end cache

/-- newCache normalizes a configured default expiration of 0 to the
"never expires" sentinel -1 and starts with empty storage, dedup map and
queue. -/
def newCache (de : Int) : CacheState :=
  { defaultExpiration := if de = 0 then -1 else de,
    items := [],
    refreshMap := [],
    refreshQueue := [] }

/-- liveAt says an unexpired entry for the key is present at the given time,
where expiry is the engine's inline read-path test
(`Expiration > 0 && now > Expiration`). -/
def liveAt (c : CacheState) (k : String) (now : Int) : Prop :=
  ∃ it, mapGet c.items k = some it ∧ ¬(0 < it.Expiration ∧ it.Expiration < now)

/-- JVal is the JSON value produced for the `Object` field by the
redis-backed storage's `json.Marshal`: an integer-valued number (its exact
decimal digits), a float-valued number (Go prints a representation that
parses back to the same binary64), a string, or null.  Modelled from the
documented semantics of Go `encoding/json`, which the source calls. -/
inductive JVal where
  | num (x : Int)
  | fnum (f : Float)
  | str (s : String)
  | null

/-- JDoc is the JSON object `json.Marshal` produces for an `Item`: the
encoded `Object` field plus the two numeric timestamp fields. -/
structure JDoc where
  obj : JVal
  exp : Int
  rd : Int

/-- encodeVal models how `json.Marshal` renders each dynamically typed
payload: every Go integer type prints as a JSON number with its exact
digits, floats print as round-trippable numbers, strings as JSON strings,
nil as null. -/
def encodeVal : GoVal → JVal
  | GoVal.vint x => JVal.num x
  | GoVal.vint8 x => JVal.num x
  | GoVal.vint16 x => JVal.num x
  | GoVal.vint32 x => JVal.num x
  | GoVal.vint64 x => JVal.num x
  | GoVal.vuint x => JVal.num x
  | GoVal.vuintptr x => JVal.num x
  | GoVal.vuint8 x => JVal.num x
  | GoVal.vuint16 x => JVal.num x
  | GoVal.vuint32 x => JVal.num x
  | GoVal.vuint64 x => JVal.num x
  | GoVal.vfloat32 f => JVal.fnum f
  | GoVal.vfloat64 f => JVal.fnum f
  | GoVal.vstr s => JVal.str s
  | GoVal.vnil => JVal.null

/-- decodeVal models how `json.Unmarshal` fills an `interface{}` field:
every JSON number decodes as a `float64`, strings as strings, null as the
nil interface.  Modelled from the documented semantics of Go
`encoding/json`, which the source calls. -/
def decodeVal : JVal → GoVal
  | JVal.num x => GoVal.vfloat64 (Float.ofInt x)
  | JVal.fnum f => GoVal.vfloat64 f
  | JVal.str s => GoVal.vstr s
  | JVal.null => GoVal.vnil

/-- resolveDur is the duration resolution step at the top of `Set`: a 0
(default) duration picks the configured default, everything else stands. -/
def resolveDur (de d : Int) : Int := if d = DefaultExpiration then de else d

/-- absTS turns a resolved relative duration into the absolute timestamp a
write stores: positive durations are added to the current time, everything
else leaves the sentinel 0. -/
def absTS (now dur : Int) : Int := if 0 < dur then now + dur else 0

namespace redisStorage

/-- Marshal models the JSON-based `redisStorage.Marshal`: `json.Marshal` of
the whole `Item` struct. -/
def Marshal (item : Item) : JDoc :=
  JDoc.mk (encodeVal item.Object) item.Expiration item.RefreshDeadline

/-- UnMarshal models the matching `json.Unmarshal` into a fresh `Item`: the
`int64` timestamp fields decode exactly, the `interface{}` payload decodes
per `decodeVal`. -/
def UnMarshal (d : JDoc) : Item :=
  Item.mk (decodeVal d.obj) d.exp d.rd

end redisStorage

/-! Shared lemmas about the association-list map and the read paths. -/

theorem mapGet_mapSet_self (m : List (String × Item)) (k : String) (it : Item) :
    mapGet (mapSet m k it) k = some it := by
  induction m with
  | nil => simp [mapSet, mapGet, List.find?]
  | cons p rest ih =>
    by_cases h : p.fst == k
    · simp [mapSet, h, mapGet, List.find?]
    · simpa [mapSet, h, mapGet, List.find?] using ih

theorem mapGet_mapSet_ne (m : List (String × Item)) (k k' : String) (it : Item)
    (h : k' ≠ k) : mapGet (mapSet m k it) k' = mapGet m k' := by
  induction m with
  | nil =>
    simp [mapSet, mapGet, List.find?, show (k == k') = false from
      beq_eq_false_iff_ne.mpr (fun hk => h hk.symm)]
  | cons p rest ih =>
    by_cases hp : p.fst == k
    · have hpk : p.fst = k := beq_iff_eq.mp hp
      simp [mapSet, hp, mapGet, List.find?,
        show (k == k') = false from beq_eq_false_iff_ne.mpr (fun hk => h hk.symm),
        show (p.fst == k') = false from
          beq_eq_false_iff_ne.mpr (fun hk => h (hpk ▸ hk).symm)]
    · by_cases hq : p.fst == k'
      · simp [mapSet, hp, mapGet, List.find?, hq]
      · simpa [mapSet, hp, mapGet, List.find?, hq] using ih

theorem Set_items (now : Int) (k : String) (x : GoVal) (d rd : Int)
    (c : CacheState) :
    (cache.Set now k x d rd c).items =
      mapSet c.items k
        (Item.mk x (absTS now (resolveDur c.defaultExpiration d)) (absTS now rd)) := rfl

theorem Set_defaultExpiration (now : Int) (k : String) (x : GoVal) (d rd : Int)
    (c : CacheState) :
    (cache.Set now k x d rd c).defaultExpiration = c.defaultExpiration := rfl

theorem get_fst_eq (now : Int) (k : String) (c : CacheState) :
    (cache.get now k c).fst =
      match mapGet c.items k with
      | none => none
      | some it =>
        if 0 < it.Expiration ∧ it.Expiration < now then none
        else some it.Object := by
  unfold cache.get
  cases mapGet c.items k with
  | none => rfl
  | some it =>
    dsimp only
    split
    · rfl
    · split
      · split <;> rfl
      · rfl

theorem get_snd_items (now : Int) (k : String) (c : CacheState) :
    (cache.get now k c).snd.items = c.items := by
  unfold cache.get
  cases mapGet c.items k with
  | none => rfl
  | some it =>
    dsimp only
    split
    · rfl
    · split
      · split <;> rfl
      · rfl

theorem get_snd_defaultExpiration (now : Int) (k : String) (c : CacheState) :
    (cache.get now k c).snd.defaultExpiration = c.defaultExpiration := by
  unfold cache.get
  cases mapGet c.items k with
  | none => rfl
  | some it =>
    dsimp only
    split
    · rfl
    · split
      · split <;> rfl
      · rfl

theorem Get_fst_eq (now : Int) (k : String) (c : CacheState) :
    (cache.Get now k c).fst =
      match mapGet c.items k with
      | none => none
      | some it =>
        if 0 < it.Expiration ∧ it.Expiration < now then none
        else some it.Object := by
  unfold cache.Get
  cases mapGet c.items k with
  | none => rfl
  | some it =>
    dsimp only
    split
    · rfl
    · split
      · split <;> rfl
      · rfl

theorem get_fst_isSome_iff (now : Int) (k : String) (c : CacheState) :
    (cache.get now k c).fst.isSome ↔ liveAt c k now := by
  rw [get_fst_eq]
  cases h : mapGet c.items k with
  | none =>
    simp only [Option.isSome_none, Bool.false_eq_true, false_iff]
    rintro ⟨it', hit', -⟩
    rw [h] at hit'
    exact Option.noConfusion hit'
  | some it =>
    dsimp only
    by_cases he : 0 < it.Expiration ∧ it.Expiration < now
    · rw [if_pos he]
      simp only [Option.isSome_none, Bool.false_eq_true, false_iff]
      rintro ⟨it', hit', hlive⟩
      rw [h] at hit'
      exact hlive (Option.some.inj hit' ▸ he)
    · rw [if_neg he]
      simp only [Option.isSome_some, true_iff]
      exact ⟨it, h, he⟩

theorem get_fst_of_live (now : Int) (k : String) (c : CacheState) (it : Item)
    (h : mapGet c.items k = some it)
    (he : ¬(0 < it.Expiration ∧ it.Expiration < now)) :
    (cache.get now k c).fst = some it.Object := by
  rw [get_fst_eq, h]
  exact if_neg he

/-! Claim theorems. -/

/-- C1: for every key, every stored value of a supported numeric type and
every n, after `Set` a successful `Increment` (resp. `Decrement`) stores
the sum (resp. difference) computed in the stored value's own type with
that type's fixed-width wraparound semantics, and a subsequent `Get`
(while the entry is unexpired) returns that wrapped value; in particular
int8 127 + 1 wraps to -128 and uint8 0 - 1 wraps to 255. -/
theorem set_increment_get_wraparound
    (c : CacheState) (k : String) (v : GoVal) (d rd n t0 t1 t2 : Int)
    (hi : (incVal v n).isSome) (hd : (decVal v n).isSome)
    (hfresh :
      (Item.mk v (absTS t0 (resolveDur c.defaultExpiration d)) (absTS t0 rd)).Expired t1
        = false)
    (hget : ¬(0 < absTS t0 (resolveDur c.defaultExpiration d) ∧
        absTS t0 (resolveDur c.defaultExpiration d) < t2)) :
    ((cache.Increment t1 k n (cache.Set t0 k v d rd c)).fst = none ∧
      mapGet (cache.Increment t1 k n (cache.Set t0 k v d rd c)).snd.items k =
        (incVal v n).map (fun w =>
          Item.mk w (absTS t0 (resolveDur c.defaultExpiration d)) (absTS t0 rd)) ∧
      (cache.Get t2 k (cache.Increment t1 k n (cache.Set t0 k v d rd c)).snd).fst =
        incVal v n) ∧
    ((cache.Decrement t1 k n (cache.Set t0 k v d rd c)).fst = none ∧
      mapGet (cache.Decrement t1 k n (cache.Set t0 k v d rd c)).snd.items k =
        (decVal v n).map (fun w =>
          Item.mk w (absTS t0 (resolveDur c.defaultExpiration d)) (absTS t0 rd)) ∧
      (cache.Get t2 k (cache.Decrement t1 k n (cache.Set t0 k v d rd c)).snd).fst =
        decVal v n) ∧
    incVal (GoVal.vint8 127) 1 = some (GoVal.vint8 (-128)) ∧
    decVal (GoVal.vuint8 0) 1 = some (GoVal.vuint8 255) := by
  set e := absTS t0 (resolveDur c.defaultExpiration d) with he_def
  set erd := absTS t0 rd with herd_def
  have hset := Set_items t0 k v d rd c
  have hm : mapGet (cache.Set t0 k v d rd c).items k = some (Item.mk v e erd) := by
    rw [hset]; exact mapGet_mapSet_self _ _ _
  obtain ⟨wi, hwi⟩ := Option.isSome_iff_exists.mp hi
  obtain ⟨wd, hwd⟩ := Option.isSome_iff_exists.mp hd
  have hinc : cache.Increment t1 k n (cache.Set t0 k v d rd c) =
      (none, { cache.Set t0 k v d rd c with
        items := mapSet (cache.Set t0 k v d rd c).items k (Item.mk wi e erd) }) := by
    simp [cache.Increment, hm, hfresh, hwi]
  have hdec : cache.Decrement t1 k n (cache.Set t0 k v d rd c) =
      (none, { cache.Set t0 k v d rd c with
        items := mapSet (cache.Set t0 k v d rd c).items k (Item.mk wd e erd) }) := by
    simp [cache.Decrement, hm, hfresh, hwd]
  refine ⟨⟨?_, ?_, ?_⟩, ⟨?_, ?_, ?_⟩, rfl, rfl⟩
  · rw [hinc]
  · rw [hinc, hwi]
    simpa using mapGet_mapSet_self _ _ _
  · rw [hinc, Get_fst_eq]
    dsimp only
    rw [mapGet_mapSet_self]
    dsimp only
    rw [if_neg hget, hwi]
  · rw [hdec]
  · rw [hdec, hwd]
    simpa using mapGet_mapSet_self _ _ _
  · rw [hdec, Get_fst_eq]
    dsimp only
    rw [mapGet_mapSet_self]
    dsimp only
    rw [if_neg hget, hwd]

/-- C1 witness: in a cache with the default configuration, setting int8 127
and incrementing by 1 yields -128 on `Get`, and setting uint8 0 and
decrementing by 1 yields 255. -/
theorem set_increment_get_wraparound_witness :
    (cache.Get 0 "k"
        (cache.Increment 0 "k" 1
          (cache.Set 0 "k" (GoVal.vint8 127) (-1) (-1) (newCache 0))).snd).fst =
      some (GoVal.vint8 (-128)) ∧
    (cache.Get 0 "k"
        (cache.Decrement 0 "k" 1
          (cache.Set 0 "k" (GoVal.vuint8 0) (-1) (-1) (newCache 0))).snd).fst =
      some (GoVal.vuint8 255) := by
  constructor
  · have h := set_increment_get_wraparound (newCache 0) "k" (GoVal.vint8 127)
      (-1) (-1) 1 0 0 0 (by rfl) (by rfl) (by rfl) (by decide)
    exact h.1.2.2.trans (by rfl)
  · have h := set_increment_get_wraparound (newCache 0) "k" (GoVal.vuint8 0)
      (-1) (-1) 1 0 0 0 (by rfl) (by rfl) (by rfl) (by decide)
    exact h.2.1.2.2.trans (by rfl)

theorem Add_eq (now : Int) (k : String) (v : GoVal) (d rd : Int) (c : CacheState) :
    cache.Add now k v d rd c =
      match (cache.get now k c).fst with
      | some _ => (some ("Item " ++ k ++ " already exists"), (cache.get now k c).snd)
      | none => (none, cache.Set now k v d rd (cache.get now k c).snd) := by
  unfold cache.Add
  rcases hp : cache.get now k c with ⟨g, c1⟩
  cases g <;> rfl

theorem Replace_eq (now : Int) (k : String) (v : GoVal) (d rd : Int)
    (c : CacheState) :
    cache.Replace now k v d rd c =
      match (cache.get now k c).fst with
      | some _ => (none, cache.Set now k v d rd (cache.get now k c).snd)
      | none => (some ("Item " ++ k ++ " doesn't exist"), (cache.get now k c).snd) := by
  unfold cache.Replace
  rcases hp : cache.get now k c with ⟨g, c1⟩
  cases g <;> rfl

theorem get_fst_none_snd (now : Int) (k : String) (c : CacheState)
    (h : (cache.get now k c).fst = none) : (cache.get now k c).snd = c := by
  unfold cache.get at h ⊢
  cases hm : mapGet c.items k with
  | none => rfl
  | some it =>
    rw [hm] at h
    dsimp only at h ⊢
    by_cases he : 0 < it.Expiration ∧ it.Expiration < now
    · rw [if_pos he]
    · rw [if_neg he] at h ⊢
      by_cases hr : 0 < it.RefreshDeadline ∧ it.RefreshDeadlineReached now
      · rw [if_pos hr] at h ⊢
        by_cases hk : k ∈ c.refreshMap
        · rw [if_pos hk] at h; exact Option.noConfusion h
        · rw [if_neg hk] at h; exact Option.noConfusion h
      · rw [if_neg hr] at h; exact Option.noConfusion h

/-- C2: `Add` fails with the "already exists" error exactly when an
unexpired entry for the key is present at call time; on failure the stored
items are unchanged and `Get` still returns the previously stored value;
otherwise it stores the value exactly as `Set` would (same duration
resolution) and returns no error. -/
theorem add_already_exists_iff
    (c : CacheState) (k : String) (v : GoVal) (d rd now : Int) :
    ((cache.Add now k v d rd c).fst = some ("Item " ++ k ++ " already exists") ↔
      liveAt c k now) ∧
    (liveAt c k now → (cache.Add now k v d rd c).snd.items = c.items) ∧
    (∀ it, mapGet c.items k = some it →
      ¬(0 < it.Expiration ∧ it.Expiration < now) →
      (cache.Get now k (cache.Add now k v d rd c).snd).fst = some it.Object) ∧
    (¬liveAt c k now →
      cache.Add now k v d rd c = (none, cache.Set now k v d rd c)) := by
  have hiff := get_fst_isSome_iff now k c
  have hsnd_items := get_snd_items now k c
  refine ⟨?_, ?_, ?_, ?_⟩
  · rw [Add_eq]
    cases hg : (cache.get now k c).fst with
    | none =>
      dsimp only
      constructor
      · intro h; exact Option.noConfusion h
      · intro hl
        have : (cache.get now k c).fst.isSome := hiff.mpr hl
        rw [hg] at this
        simp at this
    | some x =>
      dsimp only
      constructor
      · intro _
        exact hiff.mp (by rw [hg]; rfl)
      · intro _; rfl
  · intro hl
    have hs : (cache.get now k c).fst.isSome := hiff.mpr hl
    rw [Add_eq]
    cases hg : (cache.get now k c).fst with
    | none => rw [hg] at hs; simp at hs
    | some x => exact hsnd_items
  · intro it hit he
    have hl : liveAt c k now := ⟨it, hit, he⟩
    have hs : (cache.get now k c).fst.isSome := hiff.mpr hl
    rw [Add_eq]
    cases hg : (cache.get now k c).fst with
    | none => rw [hg] at hs; simp at hs
    | some x =>
      dsimp only
      rw [Get_fst_eq, hsnd_items, hit]
      exact if_neg he
  · intro hl
    have hn : (cache.get now k c).fst = none := by
      cases hg : (cache.get now k c).fst with
      | none => rfl
      | some x =>
        exact absurd (hiff.mp (by rw [hg]; rfl)) hl
    rw [Add_eq, hn]
    dsimp only
    rw [get_fst_none_snd now k c hn]

/-- C2 witness: after setting key a to 1, adding 2 under a fails with the
"already exists" error and `Get` still returns 1. -/
theorem add_already_exists_iff_witness :
    (cache.Add 0 "a" (GoVal.vint 2) (-1) (-1)
        (cache.Set 0 "a" (GoVal.vint 1) (-1) (-1) (newCache 0))).fst =
      some "Item a already exists" ∧
    (cache.Get 0 "a" (cache.Add 0 "a" (GoVal.vint 2) (-1) (-1)
        (cache.Set 0 "a" (GoVal.vint 1) (-1) (-1) (newCache 0))).snd).fst =
      some (GoVal.vint 1) := by
  have h := add_already_exists_iff
    (cache.Set 0 "a" (GoVal.vint 1) (-1) (-1) (newCache 0)) "a" (GoVal.vint 2)
    (-1) (-1) 0
  constructor
  · exact h.1.mpr ⟨Item.mk (GoVal.vint 1) 0 0, by rfl, by decide⟩
  · exact h.2.2.1 (Item.mk (GoVal.vint 1) 0 0) (by rfl) (by decide)

/-- C3: `Replace` fails with the "doesn't exist" error exactly when no
unexpired entry for the key is present at call time (leaving the state
unchanged); when a live entry exists it overwrites and a subsequent `Get`
returns the new value. -/
theorem replace_not_exist_iff
    (c : CacheState) (k : String) (v : GoVal) (d rd now : Int) :
    ((cache.Replace now k v d rd c).fst = some ("Item " ++ k ++ " doesn't exist") ↔
      ¬liveAt c k now) ∧
    (¬liveAt c k now → (cache.Replace now k v d rd c).snd = c) ∧
    (liveAt c k now →
      (cache.Replace now k v d rd c).fst = none ∧
      mapGet (cache.Replace now k v d rd c).snd.items k =
        some (Item.mk v (absTS now (resolveDur c.defaultExpiration d))
          (absTS now rd)) ∧
      ∀ t2, ¬(0 < absTS now (resolveDur c.defaultExpiration d) ∧
          absTS now (resolveDur c.defaultExpiration d) < t2) →
        (cache.Get t2 k (cache.Replace now k v d rd c).snd).fst = some v) := by
  have hiff := get_fst_isSome_iff now k c
  refine ⟨?_, ?_, ?_⟩
  · rw [Replace_eq]
    cases hg : (cache.get now k c).fst with
    | none =>
      dsimp only
      constructor
      · intro _ hl
        have : (cache.get now k c).fst.isSome := hiff.mpr hl
        rw [hg] at this
        simp at this
      · intro _; rfl
    | some x =>
      dsimp only
      constructor
      · intro h; exact Option.noConfusion h
      · intro hnl
        exact absurd (hiff.mp (by rw [hg]; rfl)) hnl
  · intro hnl
    have hn : (cache.get now k c).fst = none := by
      cases hg : (cache.get now k c).fst with
      | none => rfl
      | some x => exact absurd (hiff.mp (by rw [hg]; rfl)) hnl
    rw [Replace_eq, hn]
    dsimp only
    exact get_fst_none_snd now k c hn
  · intro hl
    have hs : (cache.get now k c).fst.isSome := hiff.mpr hl
    obtain ⟨x, hg⟩ := Option.isSome_iff_exists.mp hs
    have hde := get_snd_defaultExpiration now k c
    refine ⟨?_, ?_, ?_⟩
    · rw [Replace_eq, hg]
    · rw [Replace_eq, hg]
      dsimp only
      rw [Set_items, hde]
      exact mapGet_mapSet_self _ _ _
    · intro t2 ht2
      rw [Replace_eq, hg]
      dsimp only
      rw [Get_fst_eq, Set_items, hde, mapGet_mapSet_self]
      exact if_neg ht2

/-- C3 witness: `Replace` on a never-set key fails with the "doesn't exist"
error, and after setting key a to 1, replacing it with 2 makes `Get`
return 2. -/
theorem replace_not_exist_iff_witness :
    (cache.Replace 0 "a" (GoVal.vint 1) (-1) (-1) (newCache 0)).fst =
      some "Item a doesn't exist" ∧
    (cache.Get 0 "a" (cache.Replace 0 "a" (GoVal.vint 2) (-1) (-1)
        (cache.Set 0 "a" (GoVal.vint 1) (-1) (-1) (newCache 0))).snd).fst =
      some (GoVal.vint 2) := by
  constructor
  · exact (replace_not_exist_iff (newCache 0) "a" (GoVal.vint 1) (-1) (-1) 0).1.mpr
      (by rintro ⟨it, hit, -⟩; exact Option.noConfusion hit)
  · have h := (replace_not_exist_iff
      (cache.Set 0 "a" (GoVal.vint 1) (-1) (-1) (newCache 0)) "a" (GoVal.vint 2)
      (-1) (-1) 0).2.2 ⟨Item.mk (GoVal.vint 1) 0 0, by rfl, by decide⟩
    exact h.2.2 0 (by decide)

/-- C4: a configured default expiration duration of 0 is normalized by the
constructor to the never-expires sentinel -1, and any `Set` whose resolved
duration is not positive stores expiration timestamp 0, so a later `Get`
at any time still returns the value. -/
theorem default_zero_never_expires
    (c : CacheState) (k : String) (v : GoVal) (d rd t0 t2 : Int)
    (hnp : resolveDur c.defaultExpiration d ≤ 0) :
    (newCache 0).defaultExpiration = -1 ∧
    mapGet (cache.Set t0 k v d rd c).items k = some (Item.mk v 0 (absTS t0 rd)) ∧
    (cache.Get t2 k (cache.Set t0 k v d rd c)).fst = some v := by
  have he : absTS t0 (resolveDur c.defaultExpiration d) = 0 := by
    unfold absTS
    rw [if_neg (by omega)]
  refine ⟨rfl, ?_, ?_⟩
  · rw [Set_items, he]
    exact mapGet_mapSet_self _ _ _
  · rw [Get_fst_eq, Set_items, he, mapGet_mapSet_self]
    dsimp only
    rw [if_neg (by simp)]

/-- C4 witness: with default duration 0 at construction, a `Set` with the
default sentinel stores a never-expiring entry that `Get` still returns
at an arbitrarily late time. -/
theorem default_zero_never_expires_witness :
    (cache.Get 999999999 "a"
        (cache.Set 0 "a" (GoVal.vint 1) 0 (-1) (newCache 0))).fst =
      some (GoVal.vint 1) := by
  have h := default_zero_never_expires (newCache 0) "a" (GoVal.vint 1) 0 (-1) 0
    999999999 (by decide)
  exact h.2.2

/-- C5 counterexample: an entry whose expiration -1 is nonzero and strictly
below the current time 5 satisfies the claim's expired() reading, yet
`Get` returns the stored value and found, because the read path tests
`Expiration > 0` rather than nonzero. -/
theorem get_claimC5_counterexample :
    ((-1 : Int) ≠ 0 ∧ (-1 : Int) < 5) ∧
    (cache.Get 5 "a"
        (CacheState.mk (-1) [("a", Item.mk (GoVal.vint 7) (-1) 0)] [] [])).fst =
      some (GoVal.vint 7) :=
  ⟨⟨by decide, by decide⟩, rfl⟩

/-- C5 amended: `Get` returns not-found exactly when no entry is stored for
the key or the stored entry has positive expiration strictly less than
the current time; otherwise it returns the stored value. -/
theorem get_found_characterization (now : Int) (k : String) (c : CacheState) :
    ((cache.Get now k c).fst = none ↔
      mapGet c.items k = none ∨
        ∃ it, mapGet c.items k = some it ∧
          0 < it.Expiration ∧ it.Expiration < now) ∧
    (∀ it, mapGet c.items k = some it →
      ¬(0 < it.Expiration ∧ it.Expiration < now) →
      (cache.Get now k c).fst = some it.Object) := by
  constructor
  · rw [Get_fst_eq]
    cases h : mapGet c.items k with
    | none => simp
    | some it =>
      dsimp only
      by_cases he : 0 < it.Expiration ∧ it.Expiration < now
      · rw [if_pos he]
        exact ⟨fun _ => Or.inr ⟨it, rfl, he⟩, fun _ => rfl⟩
      · rw [if_neg he]
        refine ⟨fun hco => Option.noConfusion hco, ?_⟩
        rintro (hno | ⟨it', hit', he'⟩)
        · exact Option.noConfusion hno
        · cases Option.some.inj hit'
          exact absurd he' he
  · intro it hit he
    rw [Get_fst_eq, hit]
    exact if_neg he

/-- C5 witness for the amended claim: a never-written key reads as
not-found, and a live entry reads back its stored value. -/
theorem get_found_characterization_witness :
    (cache.Get 5 "b" (CacheState.mk (-1) [] [] [])).fst = none ∧
    (cache.Get 5 "a"
        (CacheState.mk (-1) [("a", Item.mk (GoVal.vint 3) 0 0)] [] [])).fst =
      some (GoVal.vint 3) := by
  constructor
  · exact (get_found_characterization 5 "b" (CacheState.mk (-1) [] [] [])).1.mpr
      (Or.inl rfl)
  · exact (get_found_characterization 5 "a"
      (CacheState.mk (-1) [("a", Item.mk (GoVal.vint 3) 0 0)] [] [])).2
      (Item.mk (GoVal.vint 3) 0 0) rfl (by decide)

theorem mapGet_cons_of_pos (p : String × Item) (rest : List (String × Item))
    (k : String) (h : (p.fst == k) = true) : mapGet (p :: rest) k = some p.snd := by
  simp only [mapGet, List.find?_cons, h]

theorem mapGet_cons_of_neg (p : String × Item) (rest : List (String × Item))
    (k : String) (h : (p.fst == k) = false) :
    mapGet (p :: rest) k = mapGet rest k := by
  simp only [mapGet, List.find?_cons, h]

theorem mapGet_eq_none (m : List (String × Item)) (k : String)
    (h : ∀ q ∈ m, q.fst ≠ k) : mapGet m k = none := by
  induction m with
  | nil => rfl
  | cons p rest ih =>
    rw [mapGet_cons_of_neg p rest k
      (beq_eq_false_iff_ne.mpr (h p (List.mem_cons_self p rest)))]
    exact ih (fun q hq => h q (List.mem_cons_of_mem p hq))

/-- C7 counterexample: an entry whose expiration -1 is nonzero and strictly
below the current time 5 is kept unchanged by the sweep, though the claim
demands its removal: `DeleteExpired` tests `Expiration > 0`, not nonzero. -/
theorem delete_expired_claimC7_counterexample :
    ((-1 : Int) ≠ 0 ∧ (-1 : Int) < 5) ∧
    memoryStorage.DeleteExpired 5 [("a", Item.mk (GoVal.vint 1) (-1) 0)] =
      [("a", Item.mk (GoVal.vint 1) (-1) 0)] :=
  ⟨⟨by decide, by decide⟩, rfl⟩

/-- C7 amended: over storages with distinct keys (Go map states), a single
sweep removes exactly the entries whose expiration is positive and
strictly less than the current time, keeps every other entry (in
particular every entry with expiration 0) unchanged, and tolerates the
empty storage. -/
theorem delete_expired_characterization (now : Int) (m : List (String × Item))
    (k : String) (hnd : (m.map Prod.fst).Nodup) :
    mapGet (memoryStorage.DeleteExpired now m) k =
      (mapGet m k).bind (fun it =>
        if 0 < it.Expiration ∧ it.Expiration < now then none else some it) ∧
    memoryStorage.DeleteExpired now ([] : List (String × Item)) = [] := by
  refine ⟨?_, rfl⟩
  induction m with
  | nil => rfl
  | cons p rest ih =>
    have hp_not : p.fst ∉ rest.map Prod.fst := (List.nodup_cons.mp hnd).1
    have hnd' : (rest.map Prod.fst).Nodup := (List.nodup_cons.mp hnd).2
    by_cases hkeep : 0 < p.snd.Expiration ∧ p.snd.Expiration < now
    · have hf : memoryStorage.DeleteExpired now (p :: rest) =
          memoryStorage.DeleteExpired now rest := by
        unfold memoryStorage.DeleteExpired
        rw [List.filter_cons, if_neg (by simpa using hkeep)]
      rw [hf]
      by_cases hk : (p.fst == k) = true
      · have hkk : p.fst = k := beq_iff_eq.mp hk
        have hall : ∀ q ∈ rest, q.fst ≠ k := by
          intro q hq hqk
          exact hp_not (by
            rw [hkk, ← hqk]
            exact List.mem_map_of_mem Prod.fst hq)
        have hl : mapGet (memoryStorage.DeleteExpired now rest) k = none := by
          apply mapGet_eq_none
          intro q hq
          exact hall q (List.mem_of_mem_filter hq)
        rw [hl, mapGet_cons_of_pos p rest k hk]
        dsimp only [Option.bind]
        rw [if_pos hkeep]
      · rw [mapGet_cons_of_neg p rest k (by simpa using hk)]
        exact ih hnd'
    · have hf : memoryStorage.DeleteExpired now (p :: rest) =
          p :: memoryStorage.DeleteExpired now rest := by
        unfold memoryStorage.DeleteExpired
        rw [List.filter_cons, if_pos (by
          rcases not_and_or.mp hkeep with h | h
          · simp [h]
          · simp [h])]
      rw [hf]
      by_cases hk : (p.fst == k) = true
      · rw [mapGet_cons_of_pos p _ k hk, mapGet_cons_of_pos p rest k hk]
        dsimp only [Option.bind]
        rw [if_neg hkeep]
      · rw [mapGet_cons_of_neg p _ k (by simpa using hk),
          mapGet_cons_of_neg p rest k (by simpa using hk)]
        exact ih hnd'

/-- C7 witness for the amended claim: a sweep at time 10 removes the entry
expired at 5, keeps the never-expiring entry with expiration 0 and the
entry expiring later at 20. -/
theorem delete_expired_characterization_witness :
    mapGet (memoryStorage.DeleteExpired 10
        [("a", Item.mk (GoVal.vint 1) 5 0), ("b", Item.mk (GoVal.vint 2) 0 0),
          ("c", Item.mk (GoVal.vint 3) 20 0)]) "a" = none ∧
    mapGet (memoryStorage.DeleteExpired 10
        [("a", Item.mk (GoVal.vint 1) 5 0), ("b", Item.mk (GoVal.vint 2) 0 0),
          ("c", Item.mk (GoVal.vint 3) 20 0)]) "b" =
      some (Item.mk (GoVal.vint 2) 0 0) ∧
    memoryStorage.DeleteExpired 10 ([] : List (String × Item)) = [] := by
  refine ⟨?_, ?_, ?_⟩
  · have h := (delete_expired_characterization 10
      [("a", Item.mk (GoVal.vint 1) 5 0), ("b", Item.mk (GoVal.vint 2) 0 0),
        ("c", Item.mk (GoVal.vint 3) 20 0)] "a" (by decide)).1
    rw [h]
    rfl
  · have h := (delete_expired_characterization 10
      [("a", Item.mk (GoVal.vint 1) 5 0), ("b", Item.mk (GoVal.vint 2) 0 0),
        ("c", Item.mk (GoVal.vint 3) 20 0)] "b" (by decide)).1
    rw [h]
    rfl
  · exact (delete_expired_characterization 10 [] "x" (by decide)).2

/-- C8: the `cache.get` path (used by `Add` and `Replace`) violates the
dedup-set lifecycle: on a reached refresh deadline it enqueues the key
and inserts it into the dedup map, but then deletes it from the dedup map
immediately, before any worker has run the callback — after the call the
queue holds the key while the dedup set is empty again, and the worker
step that would invoke the callback has not yet happened. -/
theorem lower_get_removes_dedup_before_callback :
    (cache.get 10 "k"
        (CacheState.mk (-1) [("k", Item.mk (GoVal.vint 1) 0 5)] [] [])).fst =
      some (GoVal.vint 1) ∧
    (cache.get 10 "k"
        (CacheState.mk (-1) [("k", Item.mk (GoVal.vint 1) 0 5)] [] [])).snd.refreshQueue =
      ["k"] ∧
    (cache.get 10 "k"
        (CacheState.mk (-1) [("k", Item.mk (GoVal.vint 1) 0 5)] [] [])).snd.refreshMap =
      [] ∧
    cache.refreshWorkerStep
        (cache.get 10 "k"
          (CacheState.mk (-1) [("k", Item.mk (GoVal.vint 1) 0 5)] [] [])).snd =
      some ("k", CacheState.mk (-1) [("k", Item.mk (GoVal.vint 1) 0 5)] [] []) :=
  ⟨rfl, rfl, rfl, rfl⟩

/-- C9: the JSON-based redis marshalling does not round-trip an `Item`
holding a Go `int`: `json.Unmarshal` fills the `interface{}` field with a
`float64` for any JSON number, so decoding the encoding of an `Item`
storing int 5 yields an `Item` whose value has a different concrete type
than the original. -/
theorem json_roundtrip_changes_int :
    redisStorage.UnMarshal (redisStorage.Marshal (Item.mk (GoVal.vint 5) 0 0)) =
      Item.mk (GoVal.vfloat64 (Float.ofInt 5)) 0 0 ∧
    redisStorage.UnMarshal (redisStorage.Marshal (Item.mk (GoVal.vint 5) 0 0)) ≠
      Item.mk (GoVal.vint 5) 0 0 := by
  refine ⟨rfl, ?_⟩
  intro h
  have h1 : GoVal.vfloat64 (Float.ofInt 5) = GoVal.vint 5 := congrArg Item.Object h
  exact GoVal.noConfusion h1

/-- C6: each typed arithmetic variant fails with the not-found error when
the key is absent or the entry has expired, fails with the type error
when the stored value's concrete type is not exactly the requested width
(no implicit widening: any other constructor, including the plain int,
fails), and on success writes back and returns the new value computed at
that width; stated for IncrementInt, IncrementInt8, IncrementUint64,
DecrementInt8 and DecrementFloat32. -/
theorem typed_arith_characterization (now : Int) (k : String) (c : CacheState) :
    ((mapGet c.items k = none → ∀ n : Int,
        cache.IncrementInt now k n c = (0, some ("Item " ++ k ++ " not found"), c)) ∧
      (∀ it, mapGet c.items k = some it → it.Expired now = true → ∀ n : Int,
        cache.IncrementInt now k n c = (0, some ("Item " ++ k ++ " not found"), c)) ∧
      (∀ it, mapGet c.items k = some it → it.Expired now = false →
        (∀ x, it.Object ≠ GoVal.vint x) → ∀ n : Int,
        cache.IncrementInt now k n c =
          (0, some ("The value for " ++ k ++ " is not an int"), c)) ∧
      (∀ it x, mapGet c.items k = some it → it.Expired now = false →
        it.Object = GoVal.vint x → ∀ n : Int,
        cache.IncrementInt now k n c =
          (wrapS 64 (x + n), none,
            { c with items := (mapSet c.items k
              (Item.mk (GoVal.vint (wrapS 64 (x + n))) it.Expiration
                it.RefreshDeadline)) }))) ∧
    ((mapGet c.items k = none → ∀ n : Int,
        cache.IncrementInt8 now k n c = (0, some ("Item " ++ k ++ " not found"), c)) ∧
      (∀ it, mapGet c.items k = some it → it.Expired now = true → ∀ n : Int,
        cache.IncrementInt8 now k n c = (0, some ("Item " ++ k ++ " not found"), c)) ∧
      (∀ it, mapGet c.items k = some it → it.Expired now = false →
        (∀ x, it.Object ≠ GoVal.vint8 x) → ∀ n : Int,
        cache.IncrementInt8 now k n c =
          (0, some ("The value for " ++ k ++ " is not an int8"), c)) ∧
      (∀ it x, mapGet c.items k = some it → it.Expired now = false →
        it.Object = GoVal.vint8 x → ∀ n : Int,
        cache.IncrementInt8 now k n c =
          (wrapS 8 (x + n), none,
            { c with items := (mapSet c.items k
              (Item.mk (GoVal.vint8 (wrapS 8 (x + n))) it.Expiration
                it.RefreshDeadline)) }))) ∧
    ((mapGet c.items k = none → ∀ n : Int,
        cache.IncrementUint64 now k n c = (0, some ("Item " ++ k ++ " not found"), c)) ∧
      (∀ it, mapGet c.items k = some it → it.Expired now = true → ∀ n : Int,
        cache.IncrementUint64 now k n c = (0, some ("Item " ++ k ++ " not found"), c)) ∧
      (∀ it, mapGet c.items k = some it → it.Expired now = false →
        (∀ x, it.Object ≠ GoVal.vuint64 x) → ∀ n : Int,
        cache.IncrementUint64 now k n c =
          (0, some ("The value for " ++ k ++ " is not an uint64"), c)) ∧
      (∀ it x, mapGet c.items k = some it → it.Expired now = false →
        it.Object = GoVal.vuint64 x → ∀ n : Int,
        cache.IncrementUint64 now k n c =
          (wrapU 64 (x + n), none,
            { c with items := (mapSet c.items k
              (Item.mk (GoVal.vuint64 (wrapU 64 (x + n))) it.Expiration
                it.RefreshDeadline)) }))) ∧
    ((mapGet c.items k = none → ∀ n : Int,
        cache.DecrementInt8 now k n c = (0, some ("Item " ++ k ++ " not found"), c)) ∧
      (∀ it, mapGet c.items k = some it → it.Expired now = true → ∀ n : Int,
        cache.DecrementInt8 now k n c = (0, some ("Item " ++ k ++ " not found"), c)) ∧
      (∀ it, mapGet c.items k = some it → it.Expired now = false →
        (∀ x, it.Object ≠ GoVal.vint8 x) → ∀ n : Int,
        cache.DecrementInt8 now k n c =
          (0, some ("The value for " ++ k ++ " is not an int8"), c)) ∧
      (∀ it x, mapGet c.items k = some it → it.Expired now = false →
        it.Object = GoVal.vint8 x → ∀ n : Int,
        cache.DecrementInt8 now k n c =
          (wrapS 8 (x - n), none,
            { c with items := (mapSet c.items k
              (Item.mk (GoVal.vint8 (wrapS 8 (x - n))) it.Expiration
                it.RefreshDeadline)) }))) ∧
    ((mapGet c.items k = none → ∀ n : Float,
        cache.DecrementFloat32 now k n c = (0, some ("Item " ++ k ++ " not found"), c)) ∧
      (∀ it, mapGet c.items k = some it → it.Expired now = true → ∀ n : Float,
        cache.DecrementFloat32 now k n c = (0, some ("Item " ++ k ++ " not found"), c)) ∧
      (∀ it, mapGet c.items k = some it → it.Expired now = false →
        (∀ f, it.Object ≠ GoVal.vfloat32 f) → ∀ n : Float,
        cache.DecrementFloat32 now k n c =
          (0, some ("The value for " ++ k ++ " is not an float32"), c)) ∧
      (∀ it f, mapGet c.items k = some it → it.Expired now = false →
        it.Object = GoVal.vfloat32 f → ∀ n : Float,
        cache.DecrementFloat32 now k n c =
          (f - n, none,
            { c with items := (mapSet c.items k
              (Item.mk (GoVal.vfloat32 (f - n)) it.Expiration
                it.RefreshDeadline)) }))) := by
  refine ⟨⟨?_, ?_, ?_, ?_⟩, ⟨?_, ?_, ?_, ?_⟩, ⟨?_, ?_, ?_, ?_⟩, ⟨?_, ?_, ?_, ?_⟩,
    ⟨?_, ?_, ?_, ?_⟩⟩
  · intro h n
    simp [cache.IncrementInt, h]
  · intro it h hexp n
    simp [cache.IncrementInt, h, hexp]
  · intro it h hexp hne n
    cases ho : it.Object <;>
      first
        | exact absurd ho (hne _)
        | simp [cache.IncrementInt, h, hexp, ho]
  · intro it x h hexp ho n
    simp [cache.IncrementInt, h, hexp, ho]
  · intro h n
    simp [cache.IncrementInt8, h]
  · intro it h hexp n
    simp [cache.IncrementInt8, h, hexp]
  · intro it h hexp hne n
    cases ho : it.Object <;>
      first
        | exact absurd ho (hne _)
        | simp [cache.IncrementInt8, h, hexp, ho]
  · intro it x h hexp ho n
    simp [cache.IncrementInt8, h, hexp, ho]
  · intro h n
    simp [cache.IncrementUint64, h]
  · intro it h hexp n
    simp [cache.IncrementUint64, h, hexp]
  · intro it h hexp hne n
    cases ho : it.Object <;>
      first
        | exact absurd ho (hne _)
        | simp [cache.IncrementUint64, h, hexp, ho]
  · intro it x h hexp ho n
    simp [cache.IncrementUint64, h, hexp, ho]
  · intro h n
    simp [cache.DecrementInt8, h]
  · intro it h hexp n
    simp [cache.DecrementInt8, h, hexp]
  · intro it h hexp hne n
    cases ho : it.Object <;>
      first
        | exact absurd ho (hne _)
        | simp [cache.DecrementInt8, h, hexp, ho]
  · intro it x h hexp ho n
    simp [cache.DecrementInt8, h, hexp, ho]
  · intro h n
    simp [cache.DecrementFloat32, h]
  · intro it h hexp n
    simp [cache.DecrementFloat32, h, hexp]
  · intro it h hexp hne n
    cases ho : it.Object <;>
      first
        | exact absurd ho (hne _)
        | simp [cache.DecrementFloat32, h, hexp, ho]
  · intro it f h hexp ho n
    simp [cache.DecrementFloat32, h, hexp, ho]

/-- C6 witness: with a plain int 5 stored under the key, IncrementInt8
fails with the int8 type error (no widening), while with int8 127 stored
it succeeds, wraps to -128 and writes that back. -/
theorem typed_arith_characterization_witness :
    cache.IncrementInt8 0 "a" 1
        (CacheState.mk (-1) [("a", Item.mk (GoVal.vint 5) 0 0)] [] []) =
      (0, some "The value for a is not an int8",
        CacheState.mk (-1) [("a", Item.mk (GoVal.vint 5) 0 0)] [] []) ∧
    cache.IncrementInt8 0 "a" 1
        (CacheState.mk (-1) [("a", Item.mk (GoVal.vint8 127) 0 0)] [] []) =
      (-128, none,
        CacheState.mk (-1) [("a", Item.mk (GoVal.vint8 (-128)) 0 0)] [] []) := by
  constructor
  · exact (typed_arith_characterization 0 "a"
      (CacheState.mk (-1) [("a", Item.mk (GoVal.vint 5) 0 0)] [] [])).2.1.2.2.1
      (Item.mk (GoVal.vint 5) 0 0) rfl rfl
      (fun x hx => GoVal.noConfusion hx) 1
  · exact ((typed_arith_characterization 0 "a"
      (CacheState.mk (-1) [("a", Item.mk (GoVal.vint8 127) 0 0)] [] [])).2.1.2.2.2
      (Item.mk (GoVal.vint8 127) 0 0) 127 rfl rfl rfl 1).trans (by rfl)

/-- C10: every successful arithmetic mutation writes back an entry whose
expiration and refresh-deadline timestamps are identical to those of the
entry read at the start of the operation; only the stored value changes
(stated for Increment, Decrement, IncrementFloat, DecrementFloat and the
typed variants modelled here). -/
theorem arith_preserves_timestamps
    (now : Int) (k : String) (c : CacheState) (it : Item)
    (hit : mapGet c.items k = some it) (hexp : it.Expired now = false) :
    (∀ (n : Int) (w : GoVal), incVal it.Object n = some w →
      mapGet (cache.Increment now k n c).snd.items k =
        some (Item.mk w it.Expiration it.RefreshDeadline)) ∧
    (∀ (n : Int) (w : GoVal), decVal it.Object n = some w →
      mapGet (cache.Decrement now k n c).snd.items k =
        some (Item.mk w it.Expiration it.RefreshDeadline)) ∧
    (∀ (n : Float) (w : GoVal), fincVal it.Object n = some w →
      mapGet (cache.IncrementFloat now k n c).snd.items k =
        some (Item.mk w it.Expiration it.RefreshDeadline)) ∧
    (∀ (n : Float) (w : GoVal), fdecVal it.Object n = some w →
      mapGet (cache.DecrementFloat now k n c).snd.items k =
        some (Item.mk w it.Expiration it.RefreshDeadline)) ∧
    (∀ (n x : Int), it.Object = GoVal.vint x →
      mapGet (cache.IncrementInt now k n c).snd.snd.items k =
        some (Item.mk (GoVal.vint (wrapS 64 (x + n))) it.Expiration
          it.RefreshDeadline)) ∧
    (∀ (n x : Int), it.Object = GoVal.vint8 x →
      mapGet (cache.IncrementInt8 now k n c).snd.snd.items k =
        some (Item.mk (GoVal.vint8 (wrapS 8 (x + n))) it.Expiration
          it.RefreshDeadline)) ∧
    (∀ (n x : Int), it.Object = GoVal.vuint64 x →
      mapGet (cache.IncrementUint64 now k n c).snd.snd.items k =
        some (Item.mk (GoVal.vuint64 (wrapU 64 (x + n))) it.Expiration
          it.RefreshDeadline)) ∧
    (∀ (n x : Int), it.Object = GoVal.vint8 x →
      mapGet (cache.DecrementInt8 now k n c).snd.snd.items k =
        some (Item.mk (GoVal.vint8 (wrapS 8 (x - n))) it.Expiration
          it.RefreshDeadline)) ∧
    (∀ (n : Float) (f : Float), it.Object = GoVal.vfloat32 f →
      mapGet (cache.DecrementFloat32 now k n c).snd.snd.items k =
        some (Item.mk (GoVal.vfloat32 (f - n)) it.Expiration
          it.RefreshDeadline)) := by
  refine ⟨?_, ?_, ?_, ?_, ?_, ?_, ?_, ?_, ?_⟩
  · intro n w hw
    have hstep : (cache.Increment now k n c).snd.items =
        mapSet c.items k (Item.mk w it.Expiration it.RefreshDeadline) := by
      simp [cache.Increment, hit, hexp, hw]
    rw [hstep]
    exact mapGet_mapSet_self _ _ _
  · intro n w hw
    have hstep : (cache.Decrement now k n c).snd.items =
        mapSet c.items k (Item.mk w it.Expiration it.RefreshDeadline) := by
      simp [cache.Decrement, hit, hexp, hw]
    rw [hstep]
    exact mapGet_mapSet_self _ _ _
  · intro n w hw
    have hstep : (cache.IncrementFloat now k n c).snd.items =
        mapSet c.items k (Item.mk w it.Expiration it.RefreshDeadline) := by
      simp [cache.IncrementFloat, hit, hexp, hw]
    rw [hstep]
    exact mapGet_mapSet_self _ _ _
  · intro n w hw
    have hstep : (cache.DecrementFloat now k n c).snd.items =
        mapSet c.items k (Item.mk w it.Expiration it.RefreshDeadline) := by
      simp [cache.DecrementFloat, hit, hexp, hw]
    rw [hstep]
    exact mapGet_mapSet_self _ _ _
  · intro n x ho
    have hstep : (cache.IncrementInt now k n c).snd.snd.items =
        mapSet c.items k (Item.mk (GoVal.vint (wrapS 64 (x + n))) it.Expiration
          it.RefreshDeadline) := by
      simp [cache.IncrementInt, hit, hexp, ho]
    rw [hstep]
    exact mapGet_mapSet_self _ _ _
  · intro n x ho
    have hstep : (cache.IncrementInt8 now k n c).snd.snd.items =
        mapSet c.items k (Item.mk (GoVal.vint8 (wrapS 8 (x + n))) it.Expiration
          it.RefreshDeadline) := by
      simp [cache.IncrementInt8, hit, hexp, ho]
    rw [hstep]
    exact mapGet_mapSet_self _ _ _
  · intro n x ho
    have hstep : (cache.IncrementUint64 now k n c).snd.snd.items =
        mapSet c.items k (Item.mk (GoVal.vuint64 (wrapU 64 (x + n))) it.Expiration
          it.RefreshDeadline) := by
      simp [cache.IncrementUint64, hit, hexp, ho]
    rw [hstep]
    exact mapGet_mapSet_self _ _ _
  · intro n x ho
    have hstep : (cache.DecrementInt8 now k n c).snd.snd.items =
        mapSet c.items k (Item.mk (GoVal.vint8 (wrapS 8 (x - n))) it.Expiration
          it.RefreshDeadline) := by
      simp [cache.DecrementInt8, hit, hexp, ho]
    rw [hstep]
    exact mapGet_mapSet_self _ _ _
  · intro n f ho
    have hstep : (cache.DecrementFloat32 now k n c).snd.snd.items =
        mapSet c.items k (Item.mk (GoVal.vfloat32 (f - n)) it.Expiration
          it.RefreshDeadline) := by
      simp [cache.DecrementFloat32, hit, hexp, ho]
    rw [hstep]
    exact mapGet_mapSet_self _ _ _

/-- C10 witness: incrementing an int entry carrying expiration 50 and
refresh deadline 40 leaves both timestamps at 50 and 40 and only changes
the value from 5 to 7. -/
theorem arith_preserves_timestamps_witness :
    mapGet (cache.Increment 0 "a" 2
        (CacheState.mk (-1) [("a", Item.mk (GoVal.vint 5) 50 40)] [] [])).snd.items
        "a" =
      some (Item.mk (GoVal.vint 7) 50 40) := by
  have h := (arith_preserves_timestamps 0 "a"
    (CacheState.mk (-1) [("a", Item.mk (GoVal.vint 5) 50 40)] [] [])
    (Item.mk (GoVal.vint 5) 50 40) rfl (by decide)).1 2
    (GoVal.vint (wrapS 64 (5 + 2))) rfl
  exact h.trans (by rfl)
